import Mathlib

/-! Formal model of the CodeReviewer service (src/app/main.py, src/cache/caching.py):
a shallow embedding of the request-orchestration pipeline — cache-key derivation,
content-cache access, GitHub repository traversal, Gemini response parsing and the
review endpoint orchestrator — together with proofs of its specified properties. -/

namespace CodeReviewer

/-- Python values produced by `json.loads`: null, booleans, numbers (kept as their
lexeme), strings, arrays and objects (insertion-ordered field lists). -/
inductive JValue where
  | jnull
  | jbool (b : Bool)
  | jnum (lexeme : String)
  | jstr (s : String)
  | jarr (elems : List JValue)
  | jobj (fields : List (String × JValue))

/-- JSON whitespace accepted between tokens by `json.loads`. -/
def isJsonWs (c : Char) : Bool :=
  c == ' ' || c == '\t' || c == '\n' || c == '\r'

/-- Skip leading JSON whitespace. -/
def skipWs : List Char → List Char
  | [] => []
  | c :: cs => if isJsonWs c then skipWs cs else c :: cs

/-- Consume an expected literal character sequence. -/
def expectLit : List Char → List Char → Option (List Char)
  | [], cs => some cs
  | _ :: _, [] => none
  | l :: ls, c :: cs => if c == l then expectLit ls cs else none

/-- Value of a hexadecimal digit. -/
def hexVal (c : Char) : Option Nat :=
  if c.isDigit then some (c.toNat - 48)
  else if 'a' ≤ c ∧ c ≤ 'f' then some (c.toNat - 87)
  else if 'A' ≤ c ∧ c ≤ 'F' then some (c.toNat - 55)
  else none

/-- Parse the remainder of a JSON string literal (after the opening quote),
handling the escape sequences accepted by `json.loads` and rejecting raw
control characters (strict mode).  Fueled; each step consumes input. -/
def parseStringRest : Nat → List Char → List Char → Option (String × List Char)
  | 0, _, _ => none
  | _ + 1, _, [] => none
  | fuel + 1, acc, c :: cs =>
    if c == '"' then some (String.mk acc.reverse, cs)
    else if c == '\\' then
      match cs with
      | [] => none
      | e :: cs2 =>
        if e == '"' then parseStringRest fuel ('"' :: acc) cs2
        else if e == '\\' then parseStringRest fuel ('\\' :: acc) cs2
        else if e == '/' then parseStringRest fuel ('/' :: acc) cs2
        else if e == 'b' then parseStringRest fuel ('\x08' :: acc) cs2
        else if e == 'f' then parseStringRest fuel ('\x0c' :: acc) cs2
        else if e == 'n' then parseStringRest fuel ('\n' :: acc) cs2
        else if e == 'r' then parseStringRest fuel ('\r' :: acc) cs2
        else if e == 't' then parseStringRest fuel ('\t' :: acc) cs2
        else if e == 'u' then
          match cs2 with
          | h1 :: h2 :: h3 :: h4 :: cs3 =>
            match hexVal h1, hexVal h2, hexVal h3, hexVal h4 with
            | some a, some b, some c2, some d =>
              parseStringRest fuel (Char.ofNat (((a * 16 + b) * 16 + c2) * 16 + d) :: acc) cs3
            | _, _, _, _ => none
          | _ => none
        else none
    else if c.toNat < 32 then none
    else parseStringRest fuel (c :: acc) cs

/-- Split off a (possibly empty) run of leading decimal digits. -/
def splitDigits : List Char → List Char × List Char
  | [] => ([], [])
  | c :: cs =>
    if c.isDigit then
      let p := splitDigits cs
      (c :: p.1, p.2)
    else ([], c :: cs)

/-- Integer part of a JSON number: `0`, or a nonzero digit followed by digits. -/
def parseIntPart : List Char → Option (List Char × List Char)
  | [] => none
  | c :: cs =>
    if c == '0' then some (['0'], cs)
    else if c.isDigit then
      let p := splitDigits cs
      some (c :: p.1, p.2)
    else none

/-- Optional fraction part `.digits`; consumed only when well formed. -/
def parseFrac (cs : List Char) : List Char × List Char :=
  match cs with
  | '.' :: cs2 =>
    match splitDigits cs2 with
    | (d :: ds, rest) => ('.' :: d :: ds, rest)
    | ([], _) => ([], cs)
  | _ => ([], cs)

/-- Optional exponent part `eE [+-] digits`; consumed only when well formed. -/
def parseExp (cs : List Char) : List Char × List Char :=
  match cs with
  | c :: cs2 =>
    if c == 'e' || c == 'E' then
      match cs2 with
      | s :: cs3 =>
        if s == '+' || s == '-' then
          match splitDigits cs3 with
          | (d :: ds, rest) => (c :: s :: d :: ds, rest)
          | ([], _) => ([], cs)
        else
          match splitDigits cs2 with
          | (d :: ds, rest) => (c :: d :: ds, rest)
          | ([], _) => ([], cs)
      | [] => ([], cs)
    else ([], cs)
  | [] => ([], [])

/-- Parse a JSON numeric literal (including the `-Infinity` extension accepted by
Python `json.loads`), returning its lexeme. -/
def parseNumber (cs : List Char) : Option (String × List Char) :=
  match cs with
  | '-' :: rest =>
    match expectLit ['I', 'n', 'f', 'i', 'n', 'i', 't', 'y'] rest with
    | some rest2 => some ("-Infinity", rest2)
    | none =>
      match parseIntPart rest with
      | some (ip, rest1) =>
        let f := parseFrac rest1
        let e := parseExp f.2
        some (String.mk ('-' :: (ip ++ f.1 ++ e.1)), e.2)
      | none => none
  | _ =>
    match parseIntPart cs with
    | some (ip, rest1) =>
      let f := parseFrac rest1
      let e := parseExp f.2
      some (String.mk (ip ++ f.1 ++ e.1), e.2)
    | none => none

/-- Parsing mode: a single value, the items of an array (after `[`), or the
fields of an object (after the opening brace). -/
inductive PMode where
  | value
  | items
  | fields
deriving DecidableEq

/-- Recursive-descent JSON parser (the grammar recognised by Python
`json.loads`), fueled so that recursion is structural and kernel-reducible.
`items` mode always returns a `jarr`, `fields` mode always a `jobj`. -/
def parseJ : Nat → PMode → List Char → Option (JValue × List Char)
  | 0, _, _ => none
  | fuel + 1, PMode.value, cs =>
    match skipWs cs with
    | [] => none
    | c :: rest =>
      if c == 'n' then
        match expectLit ['u', 'l', 'l'] rest with
        | some r => some (JValue.jnull, r)
        | none => none
      else if c == 't' then
        match expectLit ['r', 'u', 'e'] rest with
        | some r => some (JValue.jbool true, r)
        | none => none
      else if c == 'f' then
        match expectLit ['a', 'l', 's', 'e'] rest with
        | some r => some (JValue.jbool false, r)
        | none => none
      else if c == 'N' then
        match expectLit ['a', 'N'] rest with
        | some r => some (JValue.jnum "NaN", r)
        | none => none
      else if c == 'I' then
        match expectLit ['n', 'f', 'i', 'n', 'i', 't', 'y'] rest with
        | some r => some (JValue.jnum "Infinity", r)
        | none => none
      else if c == '"' then
        match parseStringRest (rest.length + 1) [] rest with
        | some (s, r) => some (JValue.jstr s, r)
        | none => none
      else if c == '\x7b' then
        match skipWs rest with
        | '\x7d' :: r => some (JValue.jobj [], r)
        | _ => parseJ fuel PMode.fields rest
      else if c == '[' then
        match skipWs rest with
        | ']' :: r => some (JValue.jarr [], r)
        | _ => parseJ fuel PMode.items rest
      else if c == '-' || c.isDigit then
        match parseNumber (c :: rest) with
        | some (lex, r) => some (JValue.jnum lex, r)
        | none => none
      else none
  | fuel + 1, PMode.items, cs =>
    match parseJ fuel PMode.value cs with
    | none => none
    | some (v, rest) =>
      match skipWs rest with
      | ',' :: rest2 =>
        match parseJ fuel PMode.items rest2 with
        | some (JValue.jarr vs, rest3) => some (JValue.jarr (v :: vs), rest3)
        | _ => none
      | ']' :: rest2 => some (JValue.jarr [v], rest2)
      | _ => none
  | fuel + 1, PMode.fields, cs =>
    match skipWs cs with
    | '"' :: rest =>
      match parseStringRest (rest.length + 1) [] rest with
      | none => none
      | some (key, rest1) =>
        match skipWs rest1 with
        | ':' :: rest2 =>
          match parseJ fuel PMode.value rest2 with
          | none => none
          | some (v, rest3) =>
            match skipWs rest3 with
            | ',' :: rest4 =>
              match parseJ fuel PMode.fields rest4 with
              | some (JValue.jobj kvs, rest5) => some (JValue.jobj ((key, v) :: kvs), rest5)
              | _ => none
            | '\x7d' :: rest4 => some (JValue.jobj [(key, v)], rest4)
            | _ => none
        | _ => none
    | _ => none

/-- Python `json.loads`: parse one JSON value and require only trailing
whitespace after it; any other input raises `json.JSONDecodeError`, modelled
as `Except.error`. -/
def json_loads (s : String) : Except Unit JValue :=
  match parseJ (s.length + 1) PMode.value s.data with
  | some (v, rest) => if skipWs rest = [] then Except.ok v else Except.error ()
  | none => Except.error ()

/-- Python `dict.get key default` on the field list of a parsed JSON object;
with duplicate keys the later occurrence wins, as in a Python dict literal built
left to right. -/
def dict_get (fields : List (String × JValue)) (key : String) (default : JValue) : JValue :=
  match fields.reverse.find? (fun kv => kv.1 == key) with
  | some kv => kv.2
  | none => default

/-- Python exceptions that can escape the modelled code paths. -/
inductive PyExc where
  | attributeError
  | storeError
deriving DecidableEq

/-- `parse_review` (src/app/main.py): `json.loads` the raw text; on success take
the three fields with `dict.get` defaults (`[]`, `"N/A"`, `""`) and return
(comments, rating, conclusion); a `json.JSONDecodeError` is caught and yields
the degraded result `([], "N/A", "Error parsing review")`.  When `json.loads`
succeeds with a non-dict value, `.get` does not exist on it, so an
`AttributeError` escapes (only `JSONDecodeError` is caught). -/
def parse_review (review : String) : Except PyExc (JValue × JValue × JValue) :=
  match json_loads review with
  | Except.ok (JValue.jobj fields) =>
    Except.ok (dict_get fields "downsides_and_comments" (JValue.jarr []),
               dict_get fields "rating" (JValue.jstr "N/A"),
               dict_get fields "conclusion" (JValue.jstr ""))
  | Except.ok _ => Except.error PyExc.attributeError
  | Except.error _ => Except.ok (JValue.jarr [], JValue.jstr "N/A", JValue.jstr "Error parsing review")

/-- A GitHub content entry as returned by `repo.get_contents`: a file with its
path and the result of `decoded_content.decode("utf-8")` (`none` models a
`UnicodeDecodeError`), or a directory with its path and listing. -/
inductive Entry where
  | file (path : String) (decoded : Option String)
  | dir (path : String) (children : List Entry)

/-- A fetched repository: insertion-ordered mapping from file path to decoded
text (Python dict of `fetch_github_repo`). -/
abbrev FileSet := List (String × String)

/-- Python dict assignment `d[k] = v`: overwrite in place when the key exists,
otherwise append. -/
def dict_insert (d : FileSet) (k v : String) : FileSet :=
  if d.any (fun kv => kv.1 == k) then
    d.map (fun kv => if kv.1 == k then (k, v) else kv)
  else d ++ [(k, v)]

/-- The `while contents:` loop of `fetch_github_repo`: pop the front of the work
queue; a directory extends the queue with its listing, a file is stored in the
dict when it decodes and skipped on `UnicodeDecodeError`. -/
def walkAux : FileSet → List Entry → FileSet
  | acc, [] => acc
  | acc, Entry.file p (some t) :: rest => walkAux (dict_insert acc p t) rest
  | acc, Entry.file _ none :: rest => walkAux acc rest
  | acc, Entry.dir _ cs :: rest => walkAux acc (rest ++ cs)
termination_by _acc q => sizeOf q
decreasing_by
  all_goals simp only [List.cons.sizeOf_spec, Entry.file.sizeOf_spec, Entry.dir.sizeOf_spec]
  · omega
  · omega
  · have h : ∀ (a b : List Entry), sizeOf (a ++ b) + 1 = sizeOf a + sizeOf b := by
      intro a b
      induction a with
      | nil => simp only [List.nil_append, List.nil.sizeOf_spec]; omega
      | cons x xs ih => simp only [List.cons_append, List.cons.sizeOf_spec, ih]; omega
    have := h rest cs
    omega

/-- The traversal without the dict accumulator: the files stored, in discovery
order, assuming no path collisions (specification-side reference used to reason
about `walkAux`). -/
def walkPlain : List Entry → FileSet
  | [] => []
  | Entry.file p (some t) :: rest => (p, t) :: walkPlain rest
  | Entry.file _ none :: rest => walkPlain rest
  | Entry.dir _ cs :: rest => walkPlain (rest ++ cs)
termination_by q => sizeOf q
decreasing_by
  all_goals simp only [List.cons.sizeOf_spec, Entry.file.sizeOf_spec, Entry.dir.sizeOf_spec]
  · omega
  · omega
  · have h : ∀ (a b : List Entry), sizeOf (a ++ b) + 1 = sizeOf a + sizeOf b := by
      intro a b
      induction a with
      | nil => simp only [List.nil_append, List.nil.sizeOf_spec]; omega
      | cons x xs ih => simp only [List.cons_append, List.cons.sizeOf_spec, ih]; omega
    have := h rest cs
    omega

/-- All file entries of a forest with their decode status, in depth-first
order (specification-side reference: the partition of the tree files into
decodable and non-decodable ones). -/
def filesOfList : List Entry → List (String × Option String)
  | [] => []
  | Entry.file p d :: rest => (p, d) :: filesOfList rest
  | Entry.dir _ cs :: rest => filesOfList cs ++ filesOfList rest
termination_by q => sizeOf q
decreasing_by
  all_goals simp only [List.cons.sizeOf_spec, Entry.file.sizeOf_spec, Entry.dir.sizeOf_spec]
  · omega
  · omega
  · omega

/-- The FastAPI `HTTPException` with its status code and detail message. -/
structure HTTPException where
  status_code : Nat
  detail : String
deriving DecidableEq

/-- Outcome of `g.get_repo(repo_name)`: the repository resolved (with its root
listing from `repo.get_contents("")`), or a `GithubException` with a status. -/
inductive GithubResolve where
  | resolved (rootContents : List Entry)
  | githubExc (status : Nat)

/-- `fetch_github_repo` (src/app/main.py): a 404 `GithubException` from
resolution raises HTTP 404 "Repository not found.", any other
`GithubException` raises HTTP 500; on success the iterative traversal builds
the file dict (decode failures skipped). -/
def fetch_github_repo (g : GithubResolve) : Except HTTPException FileSet :=
  match g with
  | GithubResolve.githubExc status =>
    if status = 404 then Except.error ⟨404, "Repository not found."⟩
    else Except.error ⟨500, "An error occurred while fetching the repository."⟩
  | GithubResolve.resolved root => Except.ok (walkAux [] root)

/-- `generate_repo_cache_key` (src/cache/caching.py): the f-string
`code:{repo_url}:{level}`. -/
def generate_repo_cache_key (repo_url level : String) : String :=
  "code:" ++ repo_url ++ ":" ++ level

/-- `get_cached_github_repo` (src/cache/caching.py): `await redis.get(key)` and
`json.loads` of a hit.  The Redis round trip (`json.dumps` on write,
`json.loads` on read) is modelled as the identity on the stored FileSet; the
argument is the store response — `Except.error` when the `redis.get` call
raises.  There is no try/except in the function, so a store failure propagates
unchanged to the caller. -/
def get_cached_github_repo (store_read : Except Unit (Option FileSet)) :
    Except Unit (Option FileSet) :=
  store_read

/-- `set_cached_github_repo` (src/cache/caching.py): `await redis.set(key,
json.dumps(data), ex=ONE_DAY)`.  The argument is the store response; there is
no try/except, so a store failure propagates unchanged to the caller. -/
def set_cached_github_repo (store_write : Except Unit Unit) : Except Unit Unit :=
  store_write

/-- The external collaborator responses for one request: the content-cache
read, the GitHub resolution, the content-cache write, and the Gemini
`generate_content` call (`Except.error msg` models a raised provider
exception). -/
structure World where
  cache_read : Except Unit (Option FileSet)
  github : GithubResolve
  cache_write : Except Unit Unit
  gemini : Except String String

/-- Observable side effects of one request, in order of occurrence. -/
inductive Effect where
  | cacheGet (key : String)
  | githubFetch
  | cacheSet (key : String)
  | geminiGenerate
deriving DecidableEq

/-- The request body of the `/review` endpoint (`ReviewRequest` pydantic model);
`github_repo_url` is kept as its string form. -/
structure ReviewRequest where
  assignment_description : String
  github_repo_url : String
  candidate_level : String

/-- The 200-response dict assembled by `review_code`. -/
structure ReviewResponse where
  files_found : List String
  downsides_or_comments : JValue
  rating : JValue
  conclusion : JValue

/-- How one request terminates: the 200 response, a raised `HTTPException`, or
an unhandled Python exception escaping the handler. -/
inductive Outcome where
  | ok (resp : ReviewResponse)
  | httpError (e : HTTPException)
  | unhandled (e : PyExc)

/-- `create_prompt` (src/app/main.py): preamble naming the level, one block per
file in dict order, the assignment description, and the output-format
instruction. -/
def create_prompt (files : FileSet) (description level : String) : String :=
  (files.foldl (fun acc kv => acc ++ "File: " ++ kv.1 ++ "\n" ++ kv.2 ++ "\n\n")
    ("You are reviewing code for a \x27" ++ level ++ "\x27 level developer.\n\nCode files:\n"))
  ++ "Assignment: " ++ description ++ "\n\n        Based on the level of the developer and his Assignment, review the code in the following format:\n        1. Downsides and Comments: List specific issues or areas for improvement.\n        2. Conclusion: Summarize your overall assessment.\n        3. Rating: Give a rating out of 10.\n        You have to give me only these three paragraphs (Downsides and Comments, Conclusion, Rating).\n        Follow this structure:\n        \"downsides_and_comments\": [\n            \"Comment 1\",\n            \"Comment 2\",\n            ...\n        ],\n        \"conclusion\": \"Overall conclusion\",\n        \"rating\": \"Rating/10\"\n        "

/-- `analyze_code_with_gemini` (src/app/main.py): build the prompt and call
`generate_content`; any provider exception is caught and re-raised as HTTP 500
with the provider message appended to "Gemini API error: ". -/
def analyze_code_with_gemini (gemini : Except String String) (files : FileSet)
    (description level : String) : Except HTTPException String :=
  let _prompt := create_prompt files description level
  match gemini with
  | Except.error msg => Except.error ⟨500, "Gemini API error: " ++ msg⟩
  | Except.ok text => Except.ok text

/-- Outcome of the tail of `review_code` once `repo_content` is settled: the
Gemini call, the `if not review` check (empty response text is falsy), parsing,
and response assembly. -/
def reviewOutcome (w : World) (repo_content : FileSet) (req : ReviewRequest) : Outcome :=
  match analyze_code_with_gemini w.gemini repo_content req.assignment_description
      req.candidate_level with
  | Except.error e => Outcome.httpError e
  | Except.ok review =>
    if review = "" then
      Outcome.httpError ⟨500, "Could not analyze code with Gemini."⟩
    else
      match parse_review review with
      | Except.error e => Outcome.unhandled e
      | Except.ok (comments, rating, conclusion) =>
        Outcome.ok ⟨repo_content.map Prod.fst, comments, rating, conclusion⟩

/-- The tail of `review_code` after `repo_content` is settled.  `tr` is the
effect trace accumulated so far; the Gemini call happens in every branch of the
tail, so it is appended to the trace once. -/
def reviewTail (w : World) (repo_content : FileSet) (req : ReviewRequest)
    (tr : List Effect) : Outcome × List Effect :=
  (reviewOutcome w repo_content req, tr ++ [Effect.geminiGenerate])

/-- The cache-miss branch of `review_code`: fetch, the `if not repo_content`
check, and the cache write, then the common tail. -/
def reviewMiss (w : World) (req : ReviewRequest) (repo_key : String) :
    Outcome × List Effect :=
  match fetch_github_repo w.github with
  | Except.error e => (Outcome.httpError e, [Effect.cacheGet repo_key, Effect.githubFetch])
  | Except.ok repo_content =>
    if repo_content = [] then
      (Outcome.httpError ⟨500, "No files found in the repository or unable to fetch content."⟩,
       [Effect.cacheGet repo_key, Effect.githubFetch])
    else
      match set_cached_github_repo w.cache_write with
      | Except.error _ =>
        (Outcome.unhandled PyExc.storeError,
         [Effect.cacheGet repo_key, Effect.githubFetch, Effect.cacheSet repo_key])
      | Except.ok _ =>
        reviewTail w repo_content req
          [Effect.cacheGet repo_key, Effect.githubFetch, Effect.cacheSet repo_key]

/-- `review_code` (src/app/main.py): derive the cache key, read the cache
(`if cached_repo:` is Python truthiness, so an empty cached dict is a miss),
fetch on a miss, reject an empty fetch, write the cache, then analyze and
parse.  A raised store error is not caught anywhere on the path. -/
def review_code (w : World) (req : ReviewRequest) : Outcome × List Effect :=
  let repo_key := generate_repo_cache_key req.github_repo_url req.candidate_level
  match get_cached_github_repo w.cache_read with
  | Except.error _ => (Outcome.unhandled PyExc.storeError, [Effect.cacheGet repo_key])
  | Except.ok cached_repo =>
    match cached_repo with
    | some repo_content =>
      if repo_content = [] then reviewMiss w req repo_key
      else reviewTail w repo_content req [Effect.cacheGet repo_key]
    | none => reviewMiss w req repo_key

/-- The pydantic `Field(..., pattern="^(Junior|Middle|Senior)$")` constraint on
`candidate_level`: an anchored alternation of three literals, hence an exact
match against the enumerated set. -/
def candidate_level_ok (s : String) : Bool :=
  s == "Junior" || s == "Middle" || s == "Senior"

/-- The `/review` endpoint: FastAPI validates the `ReviewRequest` body before
the handler body runs, so a `candidate_level` failing the pattern yields a 422
response with no handler side effects at all. -/
def handle_review (w : World) (req : ReviewRequest) : Outcome × List Effect :=
  if candidate_level_ok req.candidate_level then review_code w req
  else (Outcome.httpError ⟨422, "Unprocessable Entity"⟩, [])

/-- C1: the spec says `parse` never throws past its boundary for any input
string, returning a degraded result with rating "N/A" instead.  The code
catches only `json.JSONDecodeError`; on input "[]" — valid JSON that is not an
object — `json.loads` succeeds with a list and `parsed_data.get` raises an
`AttributeError` that escapes `parse_review` unhandled. -/
theorem parse_review_valid_json_array_raises :
    json_loads "[]" = Except.ok (JValue.jarr []) ∧
    parse_review "[]" = Except.error PyExc.attributeError :=
  ⟨rfl, rfl⟩

/-- A JSON value can never start with a backtick character, whatever follows. -/
theorem parseJ_backtick (fuel : Nat) (cs : List Char) :
    parseJ fuel PMode.value ('\x60' :: cs) = none := by
  cases fuel with
  | zero => rfl
  | succ n => rfl

/-- `json.loads` fails on any input whose first character is a backtick. -/
theorem json_loads_backtick (s : String) (rest : List Char)
    (h : s.data = '\x60' :: rest) : json_loads s = Except.error () := by
  unfold json_loads
  rw [h, parseJ_backtick]

/-- C2 (amended): `parse_review` performs no code-fence stripping at all — for
every string `s`, wrapping `s` in Markdown code fences (with or without a
language tag) makes `json.loads` fail on the backtick, so the parser returns
the degraded fallback result rather than the result of parsing `s` itself. -/
theorem parse_review_fenced_degrades (s : String) :
    parse_review ("```json\n" ++ s ++ "\n```") =
      Except.ok (JValue.jarr [], JValue.jstr "N/A", JValue.jstr "Error parsing review") ∧
    parse_review ("```\n" ++ s ++ "\n```") =
      Except.ok (JValue.jarr [], JValue.jstr "N/A", JValue.jstr "Error parsing review") := by
  constructor
  · have hd : ("```json\n" ++ s ++ "\n```").data =
        '\x60' :: ("``json\n".data ++ s.data ++ "\n```".data) := by
      simp only [String.data_append, List.append_assoc]
      rfl
    simp [parse_review, json_loads_backtick _ _ hd]
  · have hd : ("```\n" ++ s ++ "\n```").data =
        '\x60' :: ("``\n".data ++ s.data ++ "\n```".data) := by
      simp only [String.data_append, List.append_assoc]
      rfl
    simp [parse_review, json_loads_backtick _ _ hd]

/-- C2 (counterexample): a concrete JSON object wrapped in ```json fences does
not parse to the same triple as the unwrapped object. -/
theorem parse_review_fence_counterexample :
    parse_review ("```json\n" ++ "\x7b\"rating\": \"7/10\"\x7d" ++ "\n```") ≠
      parse_review "\x7b\"rating\": \"7/10\"\x7d" := by
  intro h
  have h1 : parse_review ("```json\n" ++ "\x7b\"rating\": \"7/10\"\x7d" ++ "\n```") =
      Except.ok (JValue.jarr [], JValue.jstr "N/A", JValue.jstr "Error parsing review") := rfl
  have h2 : parse_review "\x7b\"rating\": \"7/10\"\x7d" =
      Except.ok (JValue.jarr [], JValue.jstr "7/10", JValue.jstr "") := rfl
  rw [h1, h2] at h
  injection h with h3
  injection h3 with h4 h5
  injection h5 with h6 h7
  injection h6 with h8
  exact absurd h8 (by decide)

/-- C5: a `GithubException` with status 404 during repository resolution is
surfaced as HTTP 404 "Repository not found."; any other status is surfaced as
HTTP 500. -/
theorem fetch_error_mapping (status : Nat) :
    fetch_github_repo (GithubResolve.githubExc status) =
      Except.error
        (if status = 404 then ⟨404, "Repository not found."⟩
         else ⟨500, "An error occurred while fetching the repository."⟩) := by
  by_cases h : status = 404 <;> simp [fetch_github_repo, h]

/-- C7: the cache key is a pure function of the repository locator and the
candidate level only — two requests agreeing on those two fields receive the
same key, whatever their assignment descriptions. -/
theorem cache_key_ignores_description (r1 r2 : ReviewRequest)
    (hu : r1.github_repo_url = r2.github_repo_url)
    (hl : r1.candidate_level = r2.candidate_level) :
    generate_repo_cache_key r1.github_repo_url r1.candidate_level =
      generate_repo_cache_key r2.github_repo_url r2.candidate_level := by
  rw [hu, hl]

theorem cache_key_ignores_description_witness :
    generate_repo_cache_key
        (ReviewRequest.mk "Review assignment A" "https://github.com/o/r" "Junior").github_repo_url
        (ReviewRequest.mk "Review assignment A" "https://github.com/o/r" "Junior").candidate_level =
      generate_repo_cache_key
        (ReviewRequest.mk "Totally different text" "https://github.com/o/r" "Junior").github_repo_url
        (ReviewRequest.mk "Totally different text" "https://github.com/o/r" "Junior").candidate_level :=
  cache_key_ignores_description
    (ReviewRequest.mk "Review assignment A" "https://github.com/o/r" "Junior")
    (ReviewRequest.mk "Totally different text" "https://github.com/o/r" "Junior") rfl rfl

/-- C9: a request whose `candidate_level` is not exactly Junior, Middle or
Senior fails pydantic validation, so the endpoint answers 422 with an empty
effect trace — no cache, GitHub or Gemini call is made. -/
theorem invalid_level_rejected (w : World) (req : ReviewRequest)
    (h1 : req.candidate_level ≠ "Junior")
    (h2 : req.candidate_level ≠ "Middle")
    (h3 : req.candidate_level ≠ "Senior") :
    handle_review w req = (Outcome.httpError ⟨422, "Unprocessable Entity"⟩, []) := by
  simp [handle_review, candidate_level_ok, h1, h2, h3]

theorem invalid_level_rejected_witness :
    handle_review ⟨Except.ok none, GithubResolve.resolved [], Except.ok (), Except.ok "x"⟩
        ⟨"Review this code.", "https://github.com/o/r", "InvalidLevel"⟩ =
      (Outcome.httpError ⟨422, "Unprocessable Entity"⟩, []) :=
  invalid_level_rejected
    ⟨Except.ok none, GithubResolve.resolved [], Except.ok (), Except.ok "x"⟩
    ⟨"Review this code.", "https://github.com/o/r", "InvalidLevel"⟩
    (by decide) (by decide) (by decide)

/-- C10: over levels drawn from the enumerated set, the cache key builder is
injective — distinct (locator, level) pairs never collide on a key. -/
theorem cache_key_injective (u1 l1 u2 l2 : String)
    (h1 : l1 = "Junior" ∨ l1 = "Middle" ∨ l1 = "Senior")
    (h2 : l2 = "Junior" ∨ l2 = "Middle" ∨ l2 = "Senior")
    (heq : generate_repo_cache_key u1 l1 = generate_repo_cache_key u2 l2) :
    u1 = u2 ∧ l1 = l2 := by
  unfold generate_repo_cache_key at heq
  have hd := congrArg String.data heq
  simp only [String.data_append, List.append_assoc] at hd
  have hd2 := List.append_cancel_left hd
  rcases h1 with h1 | h1 | h1 <;> rcases h2 with h2 | h2 | h2 <;> subst h1 <;> subst h2 <;>
    obtain ⟨hu, hl⟩ := List.append_inj' hd2 (by decide) <;>
    first
      | exact absurd hl (by decide)
      | exact ⟨String.ext hu, rfl⟩

/-- `filesOfList` distributes over queue concatenation. -/
theorem filesOfList_append (a b : List Entry) :
    filesOfList (a ++ b) = filesOfList a ++ filesOfList b := by
  induction a using filesOfList.induct with
  | case1 => simp [filesOfList]
  | case2 p d rest ih =>
    simp only [List.cons_append, filesOfList, ih]
  | case3 p cs rest ih1 ih2 =>
    simp only [List.cons_append, filesOfList, ih2, List.append_assoc]

/-- Membership in the plain traversal result coincides with being a decodable
file of the forest. -/
theorem walkPlain_mem (q : List Entry) (p t : String) :
    (p, t) ∈ walkPlain q ↔ (p, some t) ∈ filesOfList q := by
  induction q using walkPlain.induct with
  | case1 => simp [walkPlain, filesOfList]
  | case2 p2 t2 rest ih =>
    simp [walkPlain, filesOfList, ih]
  | case3 p2 rest ih =>
    simp [walkPlain, filesOfList, ih]
  | case4 p2 cs rest ih =>
    rw [walkPlain, ih, filesOfList_append, filesOfList]
    simp only [List.mem_append]
    exact Iff.intro Or.symm Or.symm

/-- Inserting a fresh key into the dict appends it. -/
theorem dict_insert_fresh (d : FileSet) (k v : String)
    (h : ∀ kv ∈ d, kv.1 ≠ k) : dict_insert d k v = d ++ [(k, v)] := by
  unfold dict_insert
  rw [if_neg]
  simp only [List.any_eq_true, beq_iff_eq, not_exists, not_and]
  exact h

/-- With pairwise-distinct file paths, the accumulator traversal appends the
plain traversal to the accumulator (the dict never overwrites). -/
theorem walkAux_eq_append (acc : FileSet) (q : List Entry)
    (hnd : ((filesOfList q).map Prod.fst).Nodup)
    (hdis : ∀ kv ∈ acc, kv.1 ∉ (filesOfList q).map Prod.fst) :
    walkAux acc q = acc ++ walkPlain q := by
  induction acc, q using walkAux.induct with
  | case1 acc => simp [walkAux, walkPlain]
  | case2 acc p t rest ih =>
    rw [walkAux, walkPlain]
    rw [filesOfList] at hnd hdis
    simp only [List.map_cons, List.nodup_cons] at hnd
    simp only [List.map_cons, List.mem_cons] at hdis
    have hins : dict_insert acc p t = acc ++ [(p, t)] := by
      apply dict_insert_fresh
      intro kv hkv heq
      exact (hdis kv hkv) (Or.inl heq)
    have hdis2 : ∀ kv ∈ acc ++ [(p, t)], kv.1 ∉ (filesOfList rest).map Prod.fst := by
      intro kv hkv
      rcases List.mem_append.mp hkv with hin | hself
      · exact fun hmem => (hdis kv hin) (Or.inr hmem)
      · simp only [List.mem_singleton] at hself
        subst hself
        exact hnd.1
    rw [hins] at ih
    rw [hins, ih hnd.2 hdis2]
    simp
  | case3 acc p rest ih =>
    rw [walkAux, walkPlain]
    rw [filesOfList] at hnd hdis
    simp only [List.map_cons, List.nodup_cons] at hnd
    simp only [List.map_cons, List.mem_cons] at hdis
    exact ih hnd.2 (fun kv hkv hmem => (hdis kv hkv) (Or.inr hmem))
  | case4 acc p cs rest ih =>
    rw [walkAux, walkPlain]
    rw [filesOfList] at hnd hdis
    rw [List.map_append, List.nodup_append] at hnd
    apply ih
    · rw [filesOfList_append, List.map_append, List.nodup_append]
      refine ⟨hnd.2.1, hnd.1, ?_⟩
      intro a ha hb
      exact hnd.2.2 hb ha
    · intro kv hkv
      rw [filesOfList_append, List.map_append, List.mem_append]
      have h2 := hdis kv hkv
      rw [List.map_append, List.mem_append] at h2
      exact fun hor => h2 (Or.symm hor)

/-- C4: on a resolved repository whose files have pairwise-distinct paths, the
fetch succeeds and its FileSet contains exactly the UTF-8-decodable files —
each path mapped to its decoded text — while non-decodable files are skipped
without failing the fetch. -/
theorem fetch_skips_undecodable (root : List Entry)
    (hnd : ((filesOfList root).map Prod.fst).Nodup) :
    ∃ fs, fetch_github_repo (GithubResolve.resolved root) = Except.ok fs ∧
      ∀ p t, ((p, t) ∈ fs ↔ (p, some t) ∈ filesOfList root) := by
  refine ⟨walkAux [] root, rfl, ?_⟩
  intro p t
  rw [walkAux_eq_append [] root hnd (by simp), List.nil_append]
  exact walkPlain_mem root p t

theorem fetch_skips_undecodable_witness :
    ∃ fs, fetch_github_repo (GithubResolve.resolved
        [Entry.file "README.md" (some "hello"), Entry.file "logo.png" none,
         Entry.dir "src" [Entry.file "src/main.py" (some "print(1)")]]) = Except.ok fs ∧
      ∀ p t, ((p, t) ∈ fs ↔ (p, some t) ∈ filesOfList
        [Entry.file "README.md" (some "hello"), Entry.file "logo.png" none,
         Entry.dir "src" [Entry.file "src/main.py" (some "print(1)")]]) :=
  fetch_skips_undecodable
    [Entry.file "README.md" (some "hello"), Entry.file "logo.png" none,
     Entry.dir "src" [Entry.file "src/main.py" (some "print(1)")]]
    (by simp [filesOfList])

/-- C3 (counterexample): with a failing cache store, a cache-read failure is
not treated as a miss — the request aborts with an unhandled store error and no
fetch is attempted, even though the repository is resolvable. -/
theorem cache_read_failure_counterexample :
    review_code
        ⟨Except.error (), GithubResolve.resolved [Entry.file "a.py" (some "pass")],
         Except.ok (), Except.ok "irrelevant"⟩
        ⟨"desc", "https://github.com/o/r", "Junior"⟩ =
      (Outcome.unhandled PyExc.storeError,
       [Effect.cacheGet "code:https://github.com/o/r:Junior"]) ∧
    Effect.githubFetch ∉
      (review_code
        ⟨Except.error (), GithubResolve.resolved [Entry.file "a.py" (some "pass")],
         Except.ok (), Except.ok "irrelevant"⟩
        ⟨"desc", "https://github.com/o/r", "Junior"⟩).2 := by
  refine ⟨rfl, ?_⟩
  intro hmem
  have h : (review_code
      ⟨Except.error (), GithubResolve.resolved [Entry.file "a.py" (some "pass")],
       Except.ok (), Except.ok "irrelevant"⟩
      ⟨"desc", "https://github.com/o/r", "Junior"⟩).2 =
      [Effect.cacheGet "code:https://github.com/o/r:Junior"] := rfl
  rw [h] at hmem
  simp at hmem

/-- C3 (amended): the cache layer has no error handling — a failing cache read
aborts the request before any fetch, and a failing cache write aborts the
request after the fetch; neither failure is logged-and-swallowed nor treated as
a miss. -/
theorem cache_store_failure_propagates (w : World) (req : ReviewRequest) :
    (w.cache_read = Except.error () →
      review_code w req =
        (Outcome.unhandled PyExc.storeError,
         [Effect.cacheGet (generate_repo_cache_key req.github_repo_url req.candidate_level)])) ∧
    (∀ fs, w.cache_read = Except.ok none → w.cache_write = Except.error () →
      fetch_github_repo w.github = Except.ok fs → fs ≠ [] →
      review_code w req =
        (Outcome.unhandled PyExc.storeError,
         [Effect.cacheGet (generate_repo_cache_key req.github_repo_url req.candidate_level),
          Effect.githubFetch,
          Effect.cacheSet (generate_repo_cache_key req.github_repo_url req.candidate_level)])) := by
  constructor
  · intro h
    simp [review_code, get_cached_github_repo, h]
  · intro fs h1 h2 h3 h4
    simp [review_code, get_cached_github_repo, reviewMiss, set_cached_github_repo, h1, h2, h3, h4]

theorem cache_store_failure_propagates_witness :
    review_code ⟨Except.error (), GithubResolve.resolved [], Except.ok (), Except.ok "t"⟩
        ⟨"d", "https://github.com/o/r", "Junior"⟩ =
      (Outcome.unhandled PyExc.storeError,
       [Effect.cacheGet "code:https://github.com/o/r:Junior"]) ∧
    review_code ⟨Except.ok none, GithubResolve.resolved [Entry.file "a.py" (some "pass")],
        Except.error (), Except.ok "t"⟩ ⟨"d", "https://github.com/o/r", "Junior"⟩ =
      (Outcome.unhandled PyExc.storeError,
       [Effect.cacheGet "code:https://github.com/o/r:Junior", Effect.githubFetch,
        Effect.cacheSet "code:https://github.com/o/r:Junior"]) := by
  constructor
  · exact (cache_store_failure_propagates
      ⟨Except.error (), GithubResolve.resolved [], Except.ok (), Except.ok "t"⟩
      ⟨"d", "https://github.com/o/r", "Junior"⟩).1 rfl
  · exact (cache_store_failure_propagates
      ⟨Except.ok none, GithubResolve.resolved [Entry.file "a.py" (some "pass")],
       Except.error (), Except.ok "t"⟩
      ⟨"d", "https://github.com/o/r", "Junior"⟩).2 [("a.py", "pass")] rfl rfl
      (by simp [fetch_github_repo, walkAux, dict_insert]) (by decide)

/-- C6: when the cache misses and the fetch succeeds with zero decodable files,
the orchestrator raises HTTP 500 "No files found...", writes nothing to the
cache, and never calls Gemini. -/
theorem empty_fetch_terminal (w : World) (req : ReviewRequest)
    (hmiss : w.cache_read = Except.ok none)
    (hfetch : fetch_github_repo w.github = Except.ok []) :
    review_code w req =
      (Outcome.httpError ⟨500, "No files found in the repository or unable to fetch content."⟩,
       [Effect.cacheGet (generate_repo_cache_key req.github_repo_url req.candidate_level),
        Effect.githubFetch]) ∧
    (∀ k, Effect.cacheSet k ∉ (review_code w req).2) ∧
    Effect.geminiGenerate ∉ (review_code w req).2 := by
  have h : review_code w req =
      (Outcome.httpError ⟨500, "No files found in the repository or unable to fetch content."⟩,
       [Effect.cacheGet (generate_repo_cache_key req.github_repo_url req.candidate_level),
        Effect.githubFetch]) := by
    simp [review_code, get_cached_github_repo, reviewMiss, hmiss, hfetch]
  refine ⟨h, ?_, ?_⟩
  · intro k
    rw [h]
    simp
  · rw [h]
    simp

theorem empty_fetch_terminal_witness :
    review_code ⟨Except.ok none, GithubResolve.resolved [], Except.ok (), Except.ok "t"⟩
        ⟨"d", "https://github.com/o/r", "Junior"⟩ =
      (Outcome.httpError ⟨500, "No files found in the repository or unable to fetch content."⟩,
       [Effect.cacheGet "code:https://github.com/o/r:Junior", Effect.githubFetch]) ∧
    (∀ k, Effect.cacheSet k ∉
      (review_code ⟨Except.ok none, GithubResolve.resolved [], Except.ok (), Except.ok "t"⟩
        ⟨"d", "https://github.com/o/r", "Junior"⟩).2) ∧
    Effect.geminiGenerate ∉
      (review_code ⟨Except.ok none, GithubResolve.resolved [], Except.ok (), Except.ok "t"⟩
        ⟨"d", "https://github.com/o/r", "Junior"⟩).2 :=
  empty_fetch_terminal
    ⟨Except.ok none, GithubResolve.resolved [], Except.ok (), Except.ok "t"⟩
    ⟨"d", "https://github.com/o/r", "Junior"⟩ rfl (by simp [fetch_github_repo, walkAux])

/-- In the miss path, any cache-write effect implies the fetch succeeded with a
non-empty FileSet and the write appears strictly after the fetch effect. -/
theorem reviewMiss_mem_cacheSet (w : World) (req : ReviewRequest) (rk k : String)
    (hk : Effect.cacheSet k ∈ (reviewMiss w req rk).2) :
    (∃ fs, fetch_github_repo w.github = Except.ok fs ∧ fs ≠ []) ∧
    ∃ i j, i < j ∧ (reviewMiss w req rk).2.get? i = some Effect.githubFetch ∧
      (reviewMiss w req rk).2.get? j = some (Effect.cacheSet k) := by
  cases hg : fetch_github_repo w.github with
  | error e => simp [reviewMiss, hg] at hk
  | ok fs =>
    by_cases hfs : fs = []
    · simp [reviewMiss, hg, hfs] at hk
    · cases hcw : w.cache_write with
      | error e =>
        have htr : (reviewMiss w req rk).2 =
            [Effect.cacheGet rk, Effect.githubFetch, Effect.cacheSet rk] := by
          simp [reviewMiss, hg, hfs, set_cached_github_repo, hcw]
        rw [htr] at hk
        simp at hk
        subst hk
        rw [htr]
        exact ⟨⟨fs, rfl, hfs⟩, 1, 2, by omega, rfl, rfl⟩
      | ok u =>
        have htr : (reviewMiss w req rk).2 =
            [Effect.cacheGet rk, Effect.githubFetch, Effect.cacheSet rk,
             Effect.geminiGenerate] := by
          simp [reviewMiss, hg, hfs, set_cached_github_repo, hcw, reviewTail]
        rw [htr] at hk
        simp at hk
        subst hk
        rw [htr]
        exact ⟨⟨fs, rfl, hfs⟩, 1, 2, by omega, rfl, rfl⟩

/-- C8: side-effect ordering of the orchestrator — on a cache hit no cache
write ever happens, and any cache write happens only when the fetch succeeded
with a non-empty FileSet, at a trace position strictly after the fetch. -/
theorem cache_write_ordering (w : World) (req : ReviewRequest) :
    (∀ d, w.cache_read = Except.ok (some d) → d ≠ [] →
      ∀ k, Effect.cacheSet k ∉ (review_code w req).2) ∧
    (∀ k, Effect.cacheSet k ∈ (review_code w req).2 →
      (∃ fs, fetch_github_repo w.github = Except.ok fs ∧ fs ≠ []) ∧
      ∃ i j, i < j ∧ (review_code w req).2.get? i = some Effect.githubFetch ∧
        (review_code w req).2.get? j = some (Effect.cacheSet k)) := by
  obtain ⟨cr, gh, cw, gm⟩ := w
  constructor
  · intro d hd hne k
    cases cr with
    | error e => simp at hd
    | ok cached =>
      cases cached with
      | none => simp at hd
      | some d0 =>
        simp only [Except.ok.injEq, Option.some.injEq] at hd
        subst hd
        simp [review_code, get_cached_github_repo, reviewTail, hne]
  · intro k hk
    cases cr with
    | error e => simp [review_code, get_cached_github_repo] at hk
    | ok cached =>
      cases cached with
      | none =>
        have hrw : review_code ⟨Except.ok none, gh, cw, gm⟩ req =
            reviewMiss ⟨Except.ok none, gh, cw, gm⟩ req
              (generate_repo_cache_key req.github_repo_url req.candidate_level) := rfl
        rw [hrw] at hk ⊢
        exact reviewMiss_mem_cacheSet _ _ _ _ hk
      | some d0 =>
        by_cases hd0 : d0 = []
        · subst hd0
          have hrw : review_code ⟨Except.ok (some []), gh, cw, gm⟩ req =
              reviewMiss ⟨Except.ok (some []), gh, cw, gm⟩ req
                (generate_repo_cache_key req.github_repo_url req.candidate_level) := rfl
          rw [hrw] at hk ⊢
          exact reviewMiss_mem_cacheSet _ _ _ _ hk
        · exfalso
          simp [review_code, get_cached_github_repo, hd0, reviewTail] at hk

theorem cache_write_ordering_witness :
    Effect.cacheSet "code:https://github.com/o/r:Junior" ∉
      (review_code
        ⟨Except.ok (some [("a.py", "pass")]), GithubResolve.resolved [], Except.ok (),
         Except.ok "text"⟩
        ⟨"desc", "https://github.com/o/r", "Junior"⟩).2 :=
  (cache_write_ordering
    ⟨Except.ok (some [("a.py", "pass")]), GithubResolve.resolved [], Except.ok (),
     Except.ok "text"⟩
    ⟨"desc", "https://github.com/o/r", "Junior"⟩).1
    [("a.py", "pass")] rfl (by decide) "code:https://github.com/o/r:Junior"

theorem cache_key_injective_witness :
    ("https://github.com/o/r" : String) = "https://github.com/o/r" ∧
    ("Junior" : String) = "Junior" :=
  cache_key_injective "https://github.com/o/r" "Junior" "https://github.com/o/r" "Junior"
    (Or.inl rfl) (Or.inl rfl) rfl

end CodeReviewer
